import Mathlib

/-!
Verification development for the input/editing core of the `iamb` terminal
chat client.  The JavaScript sources are shallowly embedded: JS strings become
`String` or `List Char`, JS arrays become `List`, `null`/`undefined` become
`Option`, and every method becomes a pure state-passing function.  Each
definition mirrors one function of the source, named after it.
-/

namespace Iamb

/-- JS `x || null` applied to a string-or-undefined value: both `undefined`
and the (falsy) empty string collapse to `null`. -/
def jsOrNullStr : Option String → Option String
  | some s => if s = "" then none else some s
  | none => none

/-- JS `arr[i] = v` on an array of strings: writing past the end fills the
gap with holes (`none`), exactly as JavaScript leaves missing indices. -/
def jsArraySet (l : List (Option String)) (i : Nat) (v : String) : List (Option String) :=
  if i < l.length then l.set i (some v)
  else l ++ List.replicate (i - l.length) none ++ [some v]

/-- The `action` argument of `RegisterManager.prototype.updateRegister`;
the two callers (`TextBox.prototype.delete` / `TextBox.prototype.yank`)
pass exactly the strings `'delete'` and `'yank'`. -/
inductive RegAction where
  | yank
  | delete
deriving DecidableEq, Repr

/-- State of `lib/registers.js` `RegisterManager`: `yanked` (initially
`null`), the delete ring `recent` (a JS array, so holes are possible), and
the keyed `registers` object mapping single-character names to strings. -/
structure RegisterManager where
  yanked : Option String
  recent : List (Option String)
  registers : Char → Option String

/-- `new RegisterManager()`. -/
def RegisterManager.init : RegisterManager :=
  { yanked := none, recent := [], registers := fun _ => none }

/-- Update one key of the `registers` object. -/
def setReg (f : Char → Option String) (k : Char) (v : String) : Char → Option String :=
  fun c => if c = k then some v else f c

/-- `RegisterManager.prototype.updateYankRegister`. -/
def RegisterManager.updateYankRegister (rm : RegisterManager) (value : String) : RegisterManager :=
  { rm with yanked := some value }

/-- `RegisterManager.prototype.updateDeleteRegisters`: unshift onto `recent`,
set `-`, then pop until at most nine entries remain. -/
def RegisterManager.updateDeleteRegisters (rm : RegisterManager) (value : String) :
    RegisterManager :=
  { rm with
    recent := (some value :: rm.recent).take 9,
    registers := setReg rm.registers '-' value }

/-- `RegisterManager.prototype.updateCurrentBufferName`: the source assigns
`registers['%'] = registers['#']` and then `registers['#'] = value`. -/
def RegisterManager.updateCurrentBufferName (rm : RegisterManager) (value : String) :
    RegisterManager :=
  { rm with
    registers := fun c =>
      if c = '%' then rm.registers '#'
      else if c = '#' then some value
      else rm.registers c }

/-- `RegisterManager.prototype.updateInsertedText`. -/
def RegisterManager.updateInsertedText (rm : RegisterManager) (value : String) : RegisterManager :=
  { rm with registers := setReg rm.registers '.' value }

/-- `RegisterManager.prototype.updateCommand`. -/
def RegisterManager.updateCommand (rm : RegisterManager) (value : String) : RegisterManager :=
  { rm with registers := setReg rm.registers ':' value }

/-- `RegisterManager.prototype.updateSearch`: the source writes the search
text to key `':'` (`this.registers[':'] = value;`), not to `'/'`. -/
def RegisterManager.updateSearch (rm : RegisterManager) (value : String) : RegisterManager :=
  { rm with registers := setReg rm.registers ':' value }

/-- `RegisterManager.prototype.updateNamedRegister`. -/
def RegisterManager.updateNamedRegister (rm : RegisterManager) (reg : Char) (value : String) :
    RegisterManager :=
  { rm with registers := setReg rm.registers reg value }

/-- `RegisterManager.prototype.appendNamedRegister`: lower-cases the name and
appends when the register already holds a value. -/
def RegisterManager.appendNamedRegister (rm : RegisterManager) (reg : Char) (value : String) :
    RegisterManager :=
  let regl := reg.toLower
  match rm.registers regl with
  | some old => { rm with registers := setReg rm.registers regl (old ++ value) }
  | none => { rm with registers := setReg rm.registers regl value }

/-- `RegisterManager.prototype.updateRegister`.  `'_'` and the immutable
registers return early (skipping the final `registers['"'] = value`); for a
digit register the source does `this.recent[reg] = value`, and JavaScript
coerces the digit string to the numeric array index `reg - '0'`. -/
def RegisterManager.updateRegister (rm : RegisterManager) (action : RegAction) (reg : Char)
    (value : String) : RegisterManager :=
  if reg = '_' then rm
  else if reg = '0' then
    let rm := rm.updateYankRegister value
    { rm with registers := setReg rm.registers '"' value }
  else if '1' ≤ reg ∧ reg ≤ '9' then
    let rm := { rm with recent := jsArraySet rm.recent (reg.toNat - 48) value }
    { rm with registers := setReg rm.registers '"' value }
  else if 'a' ≤ reg ∧ reg ≤ 'z' then
    let rm := rm.updateNamedRegister reg value
    { rm with registers := setReg rm.registers '"' value }
  else if 'A' ≤ reg ∧ reg ≤ 'z' then
    let rm := rm.appendNamedRegister reg value
    { rm with registers := setReg rm.registers '"' value }
  else if reg = '"' then
    let rm :=
      match action with
      | .yank => rm.updateYankRegister value
      | .delete => rm.updateDeleteRegisters value
    { rm with registers := setReg rm.registers '"' value }
  else rm

/-- `RegisterManager.prototype.getRegister`.  For a digit register the source
reads `this.recent[reg - 1] || null`: JS arithmetic coercion makes the index
`reg - '0' - 1`, a hole or an empty string is collapsed to `null`. -/
def RegisterManager.getRegister (rm : RegisterManager) (reg : Char) : Option String :=
  if reg = '0' then rm.yanked
  else if '1' ≤ reg ∧ reg ≤ '9' then
    jsOrNullStr ((rm.recent.get? (reg.toNat - 48 - 1)).getD none)
  else rm.registers reg

/-- Register effect of `Pane.prototype.setView` (also run on pane creation
and by `focusView`/`focusHistory`, which call `setView`): the pane passes the
new view's short name to `updateCurrentBufferName`. -/
def paneSetViewRegisters (rm : RegisterManager) (shortName : String) : RegisterManager :=
  rm.updateCurrentBufferName shortName

/-- Claim C1: writing a digit register `k` via `updateRegister` and then
reading it back with `getRegister k` does NOT return the written value: the
write lands at ring index `k` while the read uses ring index `k - 1`, so the
value surfaces under register `k + 1` instead.  Evaluated at the failing
input `updateRegister('delete', '1', "x")` on a fresh store. -/
theorem c1_delete_slot_off_by_one :
    (RegisterManager.init.updateRegister .delete '1' "x").getRegister '1' = none ∧
    (RegisterManager.init.updateRegister .delete '1' "x").getRegister '1' ≠ some "x" ∧
    (RegisterManager.init.updateRegister .delete '1' "x").getRegister '2' = some "x" := by
  refine ⟨by decide, by decide, by decide⟩

/-- Claim C4: after two pane/view switches (short names "lobby" then
"general"), `'%'` holds the OLD name and `'#'` holds the NEW name — the source
assigns `registers['%'] = registers['#']` before `registers['#'] = value`,
the reverse of the register documentation (`%` current, `#` alternate). -/
theorem c4_buffer_name_registers_swapped :
    (paneSetViewRegisters (paneSetViewRegisters RegisterManager.init "lobby")
        "general").getRegister '%' = some "lobby" ∧
    (paneSetViewRegisters (paneSetViewRegisters RegisterManager.init "lobby")
        "general").getRegister '%' ≠ some "general" ∧
    (paneSetViewRegisters (paneSetViewRegisters RegisterManager.init "lobby")
        "general").getRegister '#' = some "general" := by
  refine ⟨by decide, by decide, by decide⟩

/-- Claim C5: `updateSearch("foo")` leaves the search register `'/'` empty and
clobbers the command register `':'` instead — the source writes to `':'`. -/
theorem c5_update_search_writes_command_register :
    (RegisterManager.init.updateSearch "foo").getRegister '/' = none ∧
    (RegisterManager.init.updateSearch "foo").getRegister '/' ≠ some "foo" ∧
    (RegisterManager.init.updateSearch "foo").getRegister ':' = some "foo" := by
  refine ⟨by decide, by decide, by decide⟩

/-- JS `hl_list[i] = item` in `HistList`: every write in the source happens at
an index `i ≤ length` (overwrite or append), which this captures. -/
def listSet {σ : Type} (l : List σ) (i : Nat) (v : σ) : List σ :=
  if i < l.length then l.set i v else l ++ [v]

/-- State of the `HistList` from `lib/util.js` (source shown appended to
`lib/ui/virtual.js`): bounded list with a cursor, `hl_ptr` starting at -1. -/
structure HistList (σ : Type) where
  list : List σ
  ptr : Int
  maxSize : Nat
deriving DecidableEq, Repr

/-- `new HistList({maxSize})`. -/
def HistList.mkNew (σ : Type) (maxSize : Nat) : HistList σ :=
  { list := [], ptr := -1, maxSize := maxSize }

/-- `HistList.prototype.append`: at capacity the oldest element is spliced
off and the pointer stays; otherwise the pointer advances, the suffix past it
is spliced away, and the item is stored at the pointer. -/
def HistList.append {σ : Type} (h : HistList σ) (item : σ) : HistList σ :=
  if h.ptr = (h.maxSize : Int) - 1 then
    { h with list := listSet (h.list.drop 1) h.ptr.toNat item }
  else
    let p := h.ptr + 1
    { h with ptr := p, list := listSet (h.list.take p.toNat) p.toNat item }

/-- `HistList.prototype.next`: saturate the pointer at the last index and
return the item there. -/
def HistList.next {σ : Type} [Inhabited σ] (h : HistList σ) (count : Nat) : σ × HistList σ :=
  let p := if h.ptr + count > (h.list.length : Int) - 1 then (h.list.length : Int) - 1
           else h.ptr + count
  ((h.list.get? p.toNat).getD default, { h with ptr := p })

/-- `HistList.prototype.prev`: saturate the pointer at 0 and return the item
there. -/
def HistList.prev {σ : Type} [Inhabited σ] (h : HistList σ) (count : Nat) : σ × HistList σ :=
  let p := if h.ptr - count < 0 then 0 else h.ptr - count
  ((h.list.get? p.toNat).getD default, { h with ptr := p })

/-- Modelled from the spec: `current()` of `HistList` ("return `list[ptr]`
(requires `ptr ≥ 0`)", §4.1).  It is called by `TextBox.prototype.erase` and
`Pane.prototype.clone` but its body is not among the captured sources. -/
def HistList.current {σ : Type} [Inhabited σ] (h : HistList σ) : σ :=
  (h.list.get? h.ptr.toNat).getD default

/-- `isKeyword` from `lib/ui/textbox.js`, lifted to JS's undefined-tolerant
comparisons: every relational test on `undefined` is false. -/
def isKeywordO : Option Char → Bool
  | some c =>
    decide (('!' ≤ c ∧ c ≤ '/') ∨ ('[' ≤ c ∧ c ≤ '^') ∨ ('{' ≤ c ∧ c ≤ '~') ∨ c = '`')
  | none => false

/-- `isWordChar` from `lib/ui/textbox.js`, undefined-tolerant. -/
def isWordCharO : Option Char → Bool
  | some c =>
    decide (('a' ≤ c ∧ c ≤ 'z') ∨ ('A' ≤ c ∧ c ≤ 'Z') ∨ ('0' ≤ c ∧ c ≤ '9') ∨ c = '_')
  | none => false

/-- JS `value[i]` for a possibly negative or out-of-range index. -/
def valueAt (v : List Char) (i : Int) : Option Char :=
  if i < 0 then none else v.get? i.toNat

/-- `isWordBegin` from `lib/ui/textbox.js`. -/
def isWordBegin (v : List Char) (idx : Int) : Bool :=
  if idx = 0 then true
  else
    let a := valueAt v (idx - 1)
    let b := valueAt v idx
    let awc := isWordCharO a
    let akw := isKeywordO a
    let bwc := isWordCharO b
    let bkw := isKeywordO b
    (awc && bkw) || (akw && bwc) || (!awc && bwc) || (!akw && bkw)

/-- `isWordEnd` from `lib/ui/textbox.js`. -/
def isWordEnd (v : List Char) (idx : Int) : Bool :=
  if idx = 0 ∨ idx ≥ (v.length : Int) - 1 then true
  else
    let a := valueAt v idx
    let b := valueAt v (idx + 1)
    let awc := isWordCharO a
    let akw := isKeywordO a
    let bwc := isWordCharO b
    let bkw := isKeywordO b
    (awc && bkw) || (akw && bwc) || (awc && !bwc) || (akw && !bkw)

/-- The while-loop of `TextBox.prototype._findChar`.  The source loop steps
`nc.x` by `move` (±1 at every call site) and exits once the position leaves
`[0, value.length]` or `count` hits 0; `fuel` bounds the trip count and is
instantiated with `value.length + 2`, which dominates it for `move = ±1`. -/
def findCharLoop (v : List Char) (ch : Char) (offset move : Int) :
    Nat → Int → Nat → Int × Nat
  | 0, x, count => (x, count)
  | fuel + 1, x, count =>
    if 0 < count ∧ 0 ≤ x ∧ x ≤ (v.length : Int) then
      let x' := x + move
      let count' := if valueAt v (x' + offset) = some ch then count - 1 else count
      findCharLoop v ch offset move fuel x' count'
    else (x, count)

/-- `TextBox.prototype._findChar`: a `null` character or an unexhausted count
yields `-1` (which the caller turns into a failed movement). -/
def findChar (v : List Char) (cursorX : Nat) (offset move : Int) (count : Nat)
    (ch : Option Char) : Int :=
  match ch with
  | none => -1
  | some c =>
    let r := findCharLoop v c offset move (v.length + 2) cursorX count
    if 0 < r.2 then -1 else r.1

/-- The while-loop of `TextBox.prototype._findWord`; same stepping and fuel
regime as `findCharLoop`, but the exit bound is `x < value.length` and the
final position is returned even when the count is unexhausted. -/
def findWordLoop (v : List Char) (pred : List Char → Int → Bool) (move : Int) :
    Nat → Int → Nat → Int
  | 0, x, _ => x
  | fuel + 1, x, count =>
    if 0 < count ∧ 0 ≤ x ∧ x < (v.length : Int) then
      let x' := x + move
      let count' := if pred v x' then count - 1 else count
      findWordLoop v pred move fuel x' count'
    else x

/-- `TextBox.prototype._findWord`. -/
def findWord (v : List Char) (cursorX : Nat) (pred : List Char → Int → Bool)
    (move : Int) (count : Nat) : Int :=
  findWordLoop v pred move (v.length + 2) cursorX count

/-- The `while (value[nc.x] === ' ')` loop of the `first-word` direction. -/
def skipSpaces (v : List Char) : Nat → Nat → Nat
  | 0, x => x
  | fuel + 1, x => if v.get? x = some ' ' then skipSpaces v fuel (x + 1) else x

/-- Cursor record `{ x, y }`. -/
structure Cursor where
  x : Nat
  y : Nat
deriving DecidableEq, Repr

/-- The movement kinds dispatched by `TextBox.prototype._movement`. -/
inductive MovementKind where
  | highlight
  | line
  | wordBegin
  | wordEnd
  | toChar
  | tillChar
  | char
deriving DecidableEq, Repr

/-- The direction strings used by the input FSMs. -/
inductive Direction where
  | left
  | right
  | up
  | down
  | firstWord
deriving DecidableEq, Repr

/-- An editing action record as emitted by the vi FSM:
`{movement, direction, character, count, register}`. -/
structure EditAction where
  movement : MovementKind
  direction : Direction
  character : Option Char
  count : Nat
  register : Char
deriving DecidableEq, Repr

/-- `isInclusiveRight` from `lib/ui/textbox.js`. -/
def isInclusiveRight (type : MovementKind) : Bool :=
  type = .toChar || type = .tillChar || type = .highlight || type = .wordEnd

/-- `isInclusiveLeft` from `lib/ui/textbox.js`. -/
def isInclusiveLeft (type : MovementKind) : Bool :=
  type = .highlight

/-- Editing-relevant state of a `TextBox`.  The rendering fields (`start`,
region cells) and the three completion bookkeeping fields only touched by
`complete()` are omitted; `completionOptions` is kept because every editing
operation clears it via `_resetcompl`. -/
structure TextBoxState where
  value : List Char
  cursor : Cursor
  hlbegin : Option Cursor
  history : HistList (List Char)
  prev : List Char
  completionOptions : List (List Char)
deriving DecidableEq, Repr

/-- `TextBox.prototype._movement`.  Outer `none` models the `VError` throws
on unknown movement/direction combinations; inner `none` is a failed motion
(`nc.x` outside `[0, len]`).  The `highlight` arm consumes `hlbegin` before
the validity check, exactly as the source does. -/
def TextBoxState.movement (tb : TextBoxState) (a : EditAction) :
    Option (Option Cursor × TextBoxState) :=
  let len := tb.value.length
  let res : Option (Int × Nat × TextBoxState) :=
    match a.movement with
    | .highlight =>
      match tb.hlbegin with
      | some hb => some (hb.x, hb.y, { tb with hlbegin := none })
      | none => some (tb.cursor.x, tb.cursor.y, tb)
    | .line =>
      match a.direction with
      | .left => some (0, tb.cursor.y, tb)
      | .right => some (len, tb.cursor.y, tb)
      | .firstWord => some (skipSpaces tb.value (len + 1) 0, tb.cursor.y, tb)
      | _ => none
    | .wordBegin =>
      match a.direction with
      | .left => some (findWord tb.value tb.cursor.x isWordBegin (-1) a.count, tb.cursor.y, tb)
      | .right => some (findWord tb.value tb.cursor.x isWordBegin 1 a.count, tb.cursor.y, tb)
      | .down => some (tb.cursor.x, tb.cursor.y, tb)
      | .up => some (tb.cursor.x, tb.cursor.y, tb)
      | .firstWord => none
    | .wordEnd =>
      match a.direction with
      | .left => some (findWord tb.value tb.cursor.x isWordEnd (-1) a.count, tb.cursor.y, tb)
      | .right => some (findWord tb.value tb.cursor.x isWordEnd 1 a.count, tb.cursor.y, tb)
      | .down => some (tb.cursor.x, tb.cursor.y, tb)
      | .up => some (tb.cursor.x, tb.cursor.y, tb)
      | .firstWord => none
    | .toChar =>
      match a.direction with
      | .left => some (findChar tb.value tb.cursor.x 0 (-1) a.count a.character, tb.cursor.y, tb)
      | .right => some (findChar tb.value tb.cursor.x 0 1 a.count a.character, tb.cursor.y, tb)
      | _ => none
    | .tillChar =>
      match a.direction with
      | .left =>
        some (findChar tb.value tb.cursor.x (-1) (-1) a.count a.character, tb.cursor.y, tb)
      | .right => some (findChar tb.value tb.cursor.x 1 1 a.count a.character, tb.cursor.y, tb)
      | _ => none
    | .char =>
      match a.direction with
      | .left => some (max ((tb.cursor.x : Int) - a.count) 0, tb.cursor.y, tb)
      | .right => some (min ((tb.cursor.x : Int) + a.count) len, tb.cursor.y, tb)
      | .down => some (tb.cursor.x, tb.cursor.y, tb)
      | .up => some (tb.cursor.x, tb.cursor.y, tb)
      | .firstWord => none
  match res with
  | none => none
  | some (x, y, tb') =>
    if x < 0 ∨ x > (len : Int) then some (none, tb')
    else some (some ⟨x.toNat, y⟩, tb')

/-- The `{start, end, nc}` record produced by `_movement2range`/`_range`
(`stop` stands for the source's `end`, a reserved word here). -/
structure MoveRange where
  start : Cursor
  stop : Cursor
  nc : Cursor
deriving DecidableEq, Repr

/-- `TextBox.prototype._movement2range`. -/
def TextBoxState.movement2range (tb : TextBoxState) (a : EditAction) :
    Option (Option MoveRange × TextBoxState) :=
  match tb.movement a with
  | none => none
  | some (none, tb') => some (none, tb')
  | some (some nc, tb') =>
    let cc := tb.cursor
    if nc.x < cc.x then
      let cc := if isInclusiveLeft a.movement then { cc with x := cc.x + 1 } else cc
      some (some ⟨nc, cc, nc⟩, tb')
    else
      let nc' := if isInclusiveRight a.movement then { nc with x := nc.x + 1 } else nc
      some (some ⟨cc, nc', cc⟩, tb')

/-- `TextBox.prototype._range`: whole-line range for `line` up/down,
otherwise `_movement2range`. -/
def TextBoxState.range (tb : TextBoxState) (a : EditAction) :
    Option (Option MoveRange × TextBoxState) :=
  match a.movement, a.direction with
  | .line, .up =>
    some (some ⟨⟨0, tb.cursor.y⟩, ⟨tb.value.length, tb.cursor.y⟩, ⟨0, tb.cursor.y⟩⟩, tb)
  | .line, .down =>
    some (some ⟨⟨0, tb.cursor.y⟩, ⟨tb.value.length, tb.cursor.y⟩, ⟨0, tb.cursor.y⟩⟩, tb)
  | _, _ => tb.movement2range a

/-- JS `value.slice(a, b)` for natural bounds. -/
def listSlice (v : List Char) (a b : Nat) : List Char :=
  (v.drop a).take (b - a)

/-- `TextBox.prototype.move`: a failed movement returns before touching the
cursor or the completion state. -/
def TextBoxState.move (tb : TextBoxState) (a : EditAction) : Option TextBoxState :=
  match tb.movement a with
  | none => none
  | some (none, tb') => some tb'
  | some (some nc, tb') => some { tb' with cursor := nc, completionOptions := [] }

/-- `TextBox.prototype.delete`: write the sliced range to the registers with
action `'delete'`, splice it out of `value`, and move the cursor to `r.nc`. -/
def TextBoxState.deleteText (tb : TextBoxState) (regs : RegisterManager) (a : EditAction) :
    Option (TextBoxState × RegisterManager) :=
  match tb.range a with
  | none => none
  | some (none, tb') => some (tb', regs)
  | some (some r, tb') =>
    let regs := regs.updateRegister .delete a.register
      (String.mk (listSlice tb'.value r.start.x r.stop.x))
    some ({ tb' with
      value := listSlice tb'.value 0 r.start.x ++ tb'.value.drop r.stop.x,
      cursor := r.nc,
      completionOptions := [] }, regs)

/-- `TextBox.prototype.checkpoint`. -/
def TextBoxState.checkpoint (tb : TextBoxState) : TextBoxState :=
  if tb.value ≠ tb.prev then
    { tb with history := tb.history.append tb.value, prev := tb.value }
  else tb

/-- `TextBox.prototype.undo`. -/
def TextBoxState.undo (tb : TextBoxState) (count : Nat) : TextBoxState :=
  let r := tb.history.prev count
  { tb with value := r.1, prev := r.1, history := r.2 }

/-- `TextBox.prototype.redo`. -/
def TextBoxState.redo (tb : TextBoxState) (count : Nat) : TextBoxState :=
  let r := tb.history.next count
  { tb with value := r.1, prev := r.1, history := r.2 }

/-- `HISTSIZE` from `lib/ui/textbox.js`. -/
def HISTSIZE : Nat := 500

/-- `TextBox.prototype.reset`: clear the completion options, empty the value,
zero the cursor, drop any highlight, build a fresh history seeded with the
(now empty) value, and sync `prev`. -/
def TextBoxState.reset (tb : TextBoxState) : TextBoxState :=
  { tb with
    completionOptions := [],
    value := [],
    cursor := ⟨0, 0⟩,
    hlbegin := none,
    history := (HistList.mkNew (List Char) HISTSIZE).append [],
    prev := [] }

/-- `TextBox.prototype.submit`: a no-op on an empty value, otherwise reset
the box and emit the old value (returned as the second component). -/
def TextBoxState.submit (tb : TextBoxState) : TextBoxState × Option (List Char) :=
  let value := tb.value
  if value = [] then (tb, none)
  else (tb.reset, some value)

/-- The vi FSM states relevant to register selection (the full machine has
more states; `getRegister` only distinguishes `insert` from the rest). -/
inductive ViMode where
  | normal
  | insert
  | replace
  | visual
deriving DecidableEq, Repr

/-- Ambient register-selection state of `ViChatFSM`: the current mode and the
`this.register` field (`null` when no register was selected). -/
structure ViChatFSM where
  mode : ViMode
  register : Option Char
deriving DecidableEq, Repr

/-- `ViChatFSM.prototype.getRegister`: in INSERT mode the blackhole register
`'_'` is returned unconditionally (without even clearing the selection);
otherwise the selected register is consumed, defaulting to `'"'`. -/
def ViChatFSM.getRegister (fsm : ViChatFSM) : Char × ViChatFSM :=
  if fsm.mode = .insert then ('_', fsm)
  else
    let reg := fsm.register
    let fsm := { fsm with register := none }
    match reg with
    | none => ('"', fsm)
    | some r => (r, fsm)

/-- A pane entry of `Window.prototype.panes`: the pane object plus its
optional fixed height/width. -/
structure PaneEnt (π : Type) where
  pane : π
  height : Option Nat
  width : Option Nat
deriving DecidableEq, Repr

/-- `Window` state: the pane list, the focused index, `this.pane` (the
focused pane object) and whether the window is in the `zoom` FSM state. -/
structure WindowState (π : Type) where
  panes : List (PaneEnt π)
  index : Nat
  pane : π
  zoomed : Bool
deriving DecidableEq, Repr

/-- `MIN_VIEW_HEIGHT` from `lib/ui/window.js`. -/
def MIN_VIEW_HEIGHT : Nat := 4

/-- `Window.prototype.reflow`, restricted to its state effect: in `zoom` it
returns immediately; otherwise it re-points `this.pane` at
`panes[this.index].pane` (the layout rebuild is display-only).  The source
indexes the list unconditionally; the `none` fallback is unreachable under
the window invariant `index < panes.length`. -/
def Window.reflow {π : Type} (w : WindowState π) : WindowState π :=
  if w.zoomed then w
  else
    match w.panes.get? w.index with
    | some e => { w with pane := e.pane }
    | none => w

/-- `Window.prototype._insert`: splice the new entry in at `this.index` and
reflow. -/
def Window.insertPane {π : Type} (w : WindowState π) (pane : π) (height width : Option Nat) :
    WindowState π :=
  Window.reflow
    { w with panes := w.panes.take w.index ++ ⟨pane, height, width⟩ :: w.panes.drop w.index }

/-- `Window.prototype.hsplit`.  `winHeight` is `this.height()` and `clone`
stands for `Pane.prototype.clone` (whose internals no claim depends on).
The guard divides as JS numbers do (exact division, modelled in `ℚ`).  JS
`if (height)` treats a requested height of 0 like an absent one, so 0 is
stored unclamped; any other request is clamped to `MIN_VIEW_HEIGHT`.  The
second component is the warning handed to `screen.warn`, if any. -/
def Window.hsplit {π : Type} (winHeight : Nat) (clone : π → π) (w : WindowState π)
    (height : Option Nat) : WindowState π × Option String :=
  if (winHeight : ℚ) / (w.panes.length + 1) < (MIN_VIEW_HEIGHT : ℚ) then
    (w, some "Not enough room")
  else
    let height :=
      match height with
      | some hh => if hh ≠ 0 then some (max hh MIN_VIEW_HEIGHT) else some hh
      | none => none
    (Window.insertPane w (clone w.pane) height none, none)

/-- extsprintf-style `%Ns`: right-justified padding to a minimum field width.
A printf width never truncates (compare the `%17s` speaker-name column in
`Room.prototype._appendPost`, which relies on the same padding). -/
def jsPadStart (w : Nat) (s : String) : String :=
  if s.length < w then String.mk (List.replicate (w - s.length) ' ') ++ s else s

/-- The synthetic log line added by the error callback in
`Room.prototype.submit` when `createPost` fails: format
`'Failed to send message: %15s...'` for messages longer than 18 characters,
`'Failed to send message: %s'` otherwise. -/
def roomSubmitFailureLine (msg : String) : String :=
  if msg.length > 18 then "Failed to send message: " ++ jsPadStart 15 msg ++ "..."
  else "Failed to send message: " ++ msg

/-- Claim C8: evaluated at the 19-character message "aaaaaaaaaaaaaaaaaaa",
the failure line contains the message in full followed by the ellipsis — the
`%15s` width pads but never truncates, so the claimed 15-character preview
("aaaaaaaaaaaaaaa...") is not produced. -/
theorem c8_failure_preview_not_truncated :
    roomSubmitFailureLine "aaaaaaaaaaaaaaaaaaa" =
        "Failed to send message: aaaaaaaaaaaaaaaaaaa..." ∧
    roomSubmitFailureLine "aaaaaaaaaaaaaaaaaaa" ≠
        "Failed to send message: aaaaaaaaaaaaaaa..." := by
  refine ⟨by decide, by decide⟩

/-- Claim C9: in the INSERT state `getRegister()` yields the blackhole
register `'_'` no matter which register was previously selected; writing any
value to `'_'` leaves the whole `RegisterManager` untouched; consequently a
delete carrying register `'_'` (as every INSERT-mode delete does) returns the
register store unchanged. -/
theorem c9_insert_mode_deletes_hit_blackhole :
    (∀ (r : Option Char), (ViChatFSM.getRegister ⟨.insert, r⟩).1 = '_') ∧
    (∀ (rm : RegisterManager) (action : RegAction) (v : String),
        rm.updateRegister action '_' v = rm) ∧
    (∀ (regs : RegisterManager) (tb : TextBoxState) (mv : MovementKind) (dir : Direction)
        (ch : Option Char) (cnt : Nat),
        (tb.deleteText regs ⟨mv, dir, ch, cnt, '_'⟩).map Prod.snd =
          (tb.deleteText regs ⟨mv, dir, ch, cnt, '_'⟩).map fun _ => regs) := by
  refine ⟨fun r => rfl, fun rm action v => rfl, fun regs tb mv dir ch cnt => ?_⟩
  unfold TextBoxState.deleteText
  rcases h : tb.range ⟨mv, dir, ch, cnt, '_'⟩ with _ | ⟨_ | r, tb'⟩ <;> rfl

/-- Claim C10: `submit` on an empty value is a complete no-op emitting
nothing; on a non-empty value the emitted event carries the old value and the
box is reset to an empty value, zeroed cursor, fresh one-element history and
synced `prev`. -/
theorem c10_submit_empty_noop_nonempty_reset (tb : TextBoxState) :
    (tb.value = [] → tb.submit = (tb, none)) ∧
    (tb.value ≠ [] →
      (tb.submit).2 = some tb.value ∧
      (tb.submit).1.value = [] ∧
      (tb.submit).1.cursor = ⟨0, 0⟩ ∧
      (tb.submit).1.hlbegin = none ∧
      (tb.submit).1.history = ⟨[[]], 0, HISTSIZE⟩ ∧
      (tb.submit).1.prev = [] ∧
      (tb.submit).1.completionOptions = []) := by
  constructor
  · intro h
    simp [TextBoxState.submit, h]
  · intro h
    simp only [TextBoxState.submit, h, if_neg h]
    refine ⟨rfl, rfl, rfl, rfl, ?_, rfl, rfl⟩
    rfl

/-- A freshly reset (empty) text box, used to exercise the empty branch of
`submit`. -/
def sampleEmptyBox : TextBoxState :=
  { value := [], cursor := ⟨0, 0⟩, hlbegin := none, history := ⟨[[]], 0, 500⟩,
    prev := [], completionOptions := [] }

/-- A text box holding the typed text "hi", checkpointed once. -/
def sampleHiBox : TextBoxState :=
  { value := ['h', 'i'], cursor := ⟨2, 0⟩, hlbegin := none,
    history := ⟨[[], ['h', 'i']], 1, 500⟩, prev := ['h', 'i'],
    completionOptions := [] }

/-- Witness for C10 at the concrete empty and two-character text boxes. -/
theorem c10_submit_witness :
    sampleEmptyBox.submit = (sampleEmptyBox, none) ∧
    (sampleHiBox.submit).2 = some sampleHiBox.value ∧
    (sampleHiBox.submit).1.value = [] ∧
    (sampleHiBox.submit).1.history = ⟨[[]], 0, HISTSIZE⟩ := by
  have h2 := (c10_submit_empty_noop_nonempty_reset sampleHiBox).2 (by decide)
  exact ⟨(c10_submit_empty_noop_nonempty_reset sampleEmptyBox).1 rfl,
    h2.1, h2.2.1, h2.2.2.2.2.1⟩


/-- `valueAt` at a natural position is plain list lookup. -/
lemma valueAt_natCast (v : List Char) (n : Nat) : valueAt v (n : Int) = v.get? n := by
  simp [valueAt]

/-- Number of occurrences of `ch` at positions strictly between `a` and `b`. -/
def occStrictlyBetween (v : List Char) (ch : Char) (a b : Nat) : Nat :=
  (List.range' (a + 1) (b - (a + 1))).countP fun j => v.get? j = some ch

lemma findCharLoop_zero_count (v : List Char) (ch : Char) (offset move : Int) :
    ∀ (fuel : Nat) (x : Int), findCharLoop v ch offset move fuel x 0 = (x, 0)
  | 0, x => rfl
  | fuel + 1, x => by simp [findCharLoop]

lemma occStrictlyBetween_next (v : List Char) (ch : Char) (x b : Nat) (h : x + 1 < b) :
    occStrictlyBetween v ch x b =
      (if v.get? (x + 1) = some ch then 1 else 0) + occStrictlyBetween v ch (x + 1) b := by
  unfold occStrictlyBetween
  have hb : b - (x + 1) = (b - (x + 1 + 1)) + 1 := by omega
  rw [hb, List.range'_succ, List.countP_cons]
  by_cases hch : v.get? (x + 1) = some ch <;> simp [hch, Nat.add_comm]

/-- When the `_findChar` loop (rightward, `to-char` offsets) exhausts its
count, the final position is the `count`-th occurrence of `ch` strictly after
the starting position. -/
lemma findCharLoop_right_success (v : List Char) (ch : Char) :
    ∀ (fuel : Nat) (x count : Nat), 1 ≤ count →
      (findCharLoop v ch 0 1 fuel (x : Int) count).2 = 0 →
      ∃ i : Nat, (findCharLoop v ch 0 1 fuel (x : Int) count).1 = (i : Int) ∧ x < i ∧
        v.get? i = some ch ∧ occStrictlyBetween v ch x i = count - 1 := by
  intro fuel
  induction fuel with
  | zero =>
    intro x count hc h0
    simp only [findCharLoop] at h0
    omega
  | succ fuel ih =>
    intro x count hc h0
    have hx1 : (x : Int) + 1 = ((x + 1 : Nat) : Int) := by push_cast; ring
    by_cases hguard : 0 < count ∧ 0 ≤ (x : Int) ∧ (x : Int) ≤ (v.length : Int)
    · simp only [findCharLoop, if_pos hguard, add_zero, hx1, valueAt_natCast] at h0 ⊢
      by_cases hch : v.get? (x + 1) = some ch
      · rw [if_pos hch] at h0 ⊢
        rcases Nat.lt_or_ge 1 count with htwo | hone
        · obtain ⟨i, h1, h2, h3, h4⟩ := ih (x + 1) (count - 1) (by omega) h0
          refine ⟨i, h1, by omega, h3, ?_⟩
          rw [occStrictlyBetween_next v ch x i (by omega), if_pos hch]
          omega
        · have hc1 : count = 1 := by omega
          subst hc1
          rw [show (1 : Nat) - 1 = 0 from rfl, findCharLoop_zero_count] at h0 ⊢
          refine ⟨x + 1, rfl, by omega, hch, ?_⟩
          simp [occStrictlyBetween]
      · rw [if_neg hch] at h0 ⊢
        obtain ⟨i, h1, h2, h3, h4⟩ := ih (x + 1) count hc h0
        refine ⟨i, h1, by omega, h3, ?_⟩
        rw [occStrictlyBetween_next v ch x i (by omega), if_neg hch]
        omega
    · simp only [findCharLoop, if_neg hguard] at h0
      omega

end Iamb

namespace Iamb

/-- Unfolded form of `findChar` for a non-null character. -/
lemma findChar_eq_loop (v : List Char) (x : Nat) (offset move : Int) (count : Nat) (ch : Char) :
    findChar v x offset move count (some ch) =
      (if 0 < (findCharLoop v ch offset move (v.length + 2) (x : Int) count).2 then -1
       else (findCharLoop v ch offset move (v.length + 2) (x : Int) count).1) := rfl

/-- Behaviour of `_findChar` for the rightward `to-char` search: either the
result is the `count`-th occurrence of `ch` strictly right of `x`, or `-1`. -/
lemma findChar_toCharRight (v : List Char) (x count : Nat) (ch : Char) (hc : 1 ≤ count) :
    (∃ i : Nat, findChar v x 0 1 count (some ch) = (i : Int) ∧ x < i ∧ v.get? i = some ch ∧
        occStrictlyBetween v ch x i = count - 1) ∨
    findChar v x 0 1 count (some ch) = -1 := by
  rw [findChar_eq_loop]
  by_cases hz : (findCharLoop v ch 0 1 (v.length + 2) (x : Int) count).2 = 0
  · left
    obtain ⟨i, h1, h2, h3, h4⟩ := findCharLoop_right_success v ch (v.length + 2) x count hc hz
    exact ⟨i, by rw [if_neg (by omega), h1], h2, h3, h4⟩
  · right
    rw [if_pos (by omega)]

/-- Unfolded form of `_movement` for the rightward `to-char` motion. -/
lemma movement_toCharRight_eq (tb : TextBoxState) (ch : Option Char) (count : Nat) (reg : Char) :
    tb.movement ⟨.toChar, .right, ch, count, reg⟩ =
      (if findChar tb.value tb.cursor.x 0 1 count ch < 0 ∨
          findChar tb.value tb.cursor.x 0 1 count ch > (tb.value.length : Int)
       then some (none, tb)
       else some (some ⟨(findChar tb.value tb.cursor.x 0 1 count ch).toNat, tb.cursor.y⟩, tb)) :=
  rfl

/-- Claim C3 (to-char motion, rightward): resolving the motion either yields
a target index `i` with `value[i] = ch` and exactly `count - 1` occurrences
of `ch` strictly between the cursor and `i`, or the motion fails and `move`
leaves the whole text-box state untouched. -/
theorem c3_to_char_right_motion (tb : TextBoxState) (ch : Char) (count : Nat) (reg : Char)
    (hc : 1 ≤ count) :
    (∃ i : Nat,
        tb.movement ⟨.toChar, .right, some ch, count, reg⟩ =
          some (some ⟨i, tb.cursor.y⟩, tb) ∧
        tb.value.get? i = some ch ∧
        occStrictlyBetween tb.value ch tb.cursor.x i = count - 1) ∨
    (tb.movement ⟨.toChar, .right, some ch, count, reg⟩ = some (none, tb) ∧
        tb.move ⟨.toChar, .right, some ch, count, reg⟩ = some tb) := by
  rcases findChar_toCharRight tb.value tb.cursor.x count ch hc with ⟨i, h1, h2, h3, h4⟩ | h1
  · left
    have hilen : i < tb.value.length := by
      rcases List.get?_eq_some.mp h3 with ⟨hl, _⟩
      exact hl
    refine ⟨i, ?_, h3, h4⟩
    rw [movement_toCharRight_eq, h1, if_neg (by omega)]
    simp
  · right
    constructor
    · rw [movement_toCharRight_eq, h1, if_pos (by norm_num)]
    · unfold TextBoxState.move
      rw [movement_toCharRight_eq, h1, if_pos (by norm_num)]


lemma findWordLoop_stop (v : List Char) (pred : List Char → Int → Bool) (move : Int) :
    ∀ (fuel : Nat) (x : Int) (count : Nat),
      ¬(0 < count ∧ 0 ≤ x ∧ x < (v.length : Int)) →
      findWordLoop v pred move fuel x count = x
  | 0, x, count, _ => rfl
  | fuel + 1, x, count, h => by simp [findWordLoop, if_neg h]

/-- Rightward `_findWord` with a count exceeding the number of predicate
hits among the visited positions runs off the right end and stops at
`value.length`. -/
lemma findWordLoop_right_excess (v : List Char) (pred : List Char → Int → Bool) :
    ∀ (fuel : Nat) (x count : Nat), x ≤ v.length →
      (List.range' (x + 1) (v.length - x)).countP (fun j : Nat => pred v (j : Int)) < count →
      v.length + 1 - x ≤ fuel →
      findWordLoop v pred 1 fuel (x : Int) count = (v.length : Int) := by
  intro fuel
  induction fuel with
  | zero =>
    intro x count hx hcnt hfuel
    omega
  | succ fuel ih =>
    intro x count hx hcnt hfuel
    by_cases hlt : x < v.length
    · have hguard : 0 < count ∧ 0 ≤ (x : Int) ∧ (x : Int) < (v.length : Int) := by
        refine ⟨by omega, by omega, by exact_mod_cast hlt⟩
      have hx1 : (x : Int) + 1 = ((x + 1 : Nat) : Int) := by push_cast; ring
      simp only [findWordLoop, if_pos hguard, hx1]
      have hsplit : v.length - x = (v.length - (x + 1)) + 1 := by omega
      rw [hsplit, List.range'_succ, List.countP_cons] at hcnt
      by_cases hp : pred v ((x + 1 : Nat) : Int)
      · rw [if_pos hp]
        refine ih (x + 1) (count - 1) (by omega) ?_ (by omega)
        simp only [hp, if_true] at hcnt
        omega
      · rw [if_neg hp]
        refine ih (x + 1) count (by omega) ?_ (by omega)
        simp only [hp, if_false] at hcnt
        omega
    · have hxlen : x = v.length := by omega
      subst hxlen
      exact findWordLoop_stop v pred 1 (fuel + 1) (v.length : Int) count (by omega)

lemma findWordLoop_neg (v : List Char) (pred : List Char → Int → Bool) (move : Int) :
    ∀ (fuel : Nat) (x : Int) (count : Nat), x < 0 →
      findWordLoop v pred move fuel x count = x := by
  intro fuel x count hx
  exact findWordLoop_stop v pred move fuel x count (by omega)

/-- Leftward `_findWord` with a count exceeding the number of predicate hits
among the visited positions (the predicate never fires at the virtual
position `-1` here) runs off the left end and stops at `-1`. -/
lemma findWordLoop_left_excess (v : List Char) (pred : List Char → Int → Bool)
    (hneg : pred v (-1) = false) :
    ∀ (fuel : Nat) (x count : Nat), x < v.length →
      (List.range x).countP (fun j : Nat => pred v (j : Int)) < count →
      x + 2 ≤ fuel →
      findWordLoop v pred (-1) fuel (x : Int) count = -1 := by
  intro fuel
  induction fuel with
  | zero =>
    intro x count hx hcnt hfuel
    omega
  | succ fuel ih =>
    intro x count hx hcnt hfuel
    have hguard : 0 < count ∧ 0 ≤ (x : Int) ∧ (x : Int) < (v.length : Int) := by
      refine ⟨by omega, by omega, by exact_mod_cast hx⟩
    rcases Nat.eq_zero_or_pos x with hx0 | hxpos
    · subst hx0
      have hstep : ((0 : Nat) : Int) + -1 = -1 := by norm_num
      simp only [findWordLoop, if_pos hguard, hstep, hneg, if_false]
      exact findWordLoop_neg v pred (-1) fuel (-1) count (by norm_num)
    · obtain ⟨k, rfl⟩ : ∃ k, x = k + 1 := ⟨x - 1, by omega⟩
      have hstep : ((k + 1 : Nat) : Int) + -1 = ((k : Nat) : Int) := by push_cast; ring
      simp only [findWordLoop, if_pos hguard, hstep]
      rw [List.range_succ, List.countP_append] at hcnt
      by_cases hp : pred v ((k : Nat) : Int)
      · rw [if_pos hp]
        refine ih k (count - 1) (by omega) ?_ (by omega)
        simp only [List.countP_cons, List.countP_nil, hp, if_true] at hcnt
        omega
      · rw [if_neg hp]
        refine ih k count (by omega) ?_ (by omega)
        simp only [List.countP_cons, List.countP_nil, hp, if_false] at hcnt
        omega

lemma isWordBegin_neg_one (v : List Char) : isWordBegin v (-1) = false := by
  norm_num [isWordBegin, valueAt, isWordCharO, isKeywordO]

lemma isWordEnd_neg_one (v : List Char) (hv : 1 ≤ v.length) : isWordEnd v (-1) = false := by
  unfold isWordEnd
  rw [if_neg ?hc]
  case hc =>
    rintro (h | h)
    · norm_num at h
    · omega
  have hva : valueAt v (-1) = none := by norm_num [valueAt]
  simp [hva, isWordCharO, isKeywordO]

/-- The word-boundary predicate that `_movement` dispatches for each of the
two word movement kinds. -/
def wordPredOf : MovementKind → List Char → Int → Bool
  | .wordBegin => isWordBegin
  | .wordEnd => isWordEnd
  | _ => fun _ _ => false

lemma movement_wordBeginRight_eq (tb : TextBoxState) (chr : Option Char) (count : Nat)
    (reg : Char) :
    tb.movement ⟨.wordBegin, .right, chr, count, reg⟩ =
      (if findWord tb.value tb.cursor.x isWordBegin 1 count < 0 ∨
          findWord tb.value tb.cursor.x isWordBegin 1 count > (tb.value.length : Int)
       then some (none, tb)
       else some (some ⟨(findWord tb.value tb.cursor.x isWordBegin 1 count).toNat,
          tb.cursor.y⟩, tb)) := rfl

lemma movement_wordEndRight_eq (tb : TextBoxState) (chr : Option Char) (count : Nat)
    (reg : Char) :
    tb.movement ⟨.wordEnd, .right, chr, count, reg⟩ =
      (if findWord tb.value tb.cursor.x isWordEnd 1 count < 0 ∨
          findWord tb.value tb.cursor.x isWordEnd 1 count > (tb.value.length : Int)
       then some (none, tb)
       else some (some ⟨(findWord tb.value tb.cursor.x isWordEnd 1 count).toNat,
          tb.cursor.y⟩, tb)) := rfl

lemma movement_wordBeginLeft_eq (tb : TextBoxState) (chr : Option Char) (count : Nat)
    (reg : Char) :
    tb.movement ⟨.wordBegin, .left, chr, count, reg⟩ =
      (if findWord tb.value tb.cursor.x isWordBegin (-1) count < 0 ∨
          findWord tb.value tb.cursor.x isWordBegin (-1) count > (tb.value.length : Int)
       then some (none, tb)
       else some (some ⟨(findWord tb.value tb.cursor.x isWordBegin (-1) count).toNat,
          tb.cursor.y⟩, tb)) := rfl

lemma movement_wordEndLeft_eq (tb : TextBoxState) (chr : Option Char) (count : Nat)
    (reg : Char) :
    tb.movement ⟨.wordEnd, .left, chr, count, reg⟩ =
      (if findWord tb.value tb.cursor.x isWordEnd (-1) count < 0 ∨
          findWord tb.value tb.cursor.x isWordEnd (-1) count > (tb.value.length : Int)
       then some (none, tb)
       else some (some ⟨(findWord tb.value tb.cursor.x isWordEnd (-1) count).toNat,
          tb.cursor.y⟩, tb)) := rfl

/-- Rightward word motion with excess count: `move` stops at the end of the
line. -/
lemma move_word_right_excess (tb : TextBoxState) (pr : List Char → Int → Bool)
    (chr : Option Char) (count : Nat) (reg : Char) (mv : MovementKind)
    (heq : tb.movement ⟨mv, .right, chr, count, reg⟩ =
      (if findWord tb.value tb.cursor.x pr 1 count < 0 ∨
          findWord tb.value tb.cursor.x pr 1 count > (tb.value.length : Int)
       then some (none, tb)
       else some (some ⟨(findWord tb.value tb.cursor.x pr 1 count).toNat, tb.cursor.y⟩, tb)))
    (hcur : tb.cursor.x ≤ tb.value.length)
    (hcnt : (List.range' (tb.cursor.x + 1) (tb.value.length - tb.cursor.x)).countP
      (fun j : Nat => pr tb.value (j : Int)) < count) :
    tb.move ⟨mv, .right, chr, count, reg⟩ =
      some { tb with cursor := ⟨tb.value.length, tb.cursor.y⟩, completionOptions := [] } := by
  have hfw : findWord tb.value tb.cursor.x pr 1 count = (tb.value.length : Int) :=
    findWordLoop_right_excess tb.value pr (tb.value.length + 2) tb.cursor.x count hcur hcnt
      (by omega)
  unfold TextBoxState.move
  rw [heq, hfw, if_neg (by omega)]
  simp

/-- Leftward word motion with excess count: the motion fails (or, with the
cursor already at the end of the line, trivially stays), so the cursor and
the value are unchanged. -/
lemma move_word_left_excess (tb : TextBoxState) (pr : List Char → Int → Bool)
    (chr : Option Char) (count : Nat) (reg : Char) (mv : MovementKind)
    (heq : tb.movement ⟨mv, .left, chr, count, reg⟩ =
      (if findWord tb.value tb.cursor.x pr (-1) count < 0 ∨
          findWord tb.value tb.cursor.x pr (-1) count > (tb.value.length : Int)
       then some (none, tb)
       else some (some ⟨(findWord tb.value tb.cursor.x pr (-1) count).toNat, tb.cursor.y⟩, tb)))
    (hneg : tb.cursor.x < tb.value.length → pr tb.value (-1) = false)
    (hcur : tb.cursor.x ≤ tb.value.length)
    (hcnt : (List.range tb.cursor.x).countP
      (fun j : Nat => pr tb.value (j : Int)) < count) :
    ∃ tb', tb.move ⟨mv, .left, chr, count, reg⟩ = some tb' ∧
      tb'.value = tb.value ∧ tb'.cursor = tb.cursor := by
  by_cases hlt : tb.cursor.x < tb.value.length
  · have hfw : findWord tb.value tb.cursor.x pr (-1) count = -1 :=
      findWordLoop_left_excess tb.value pr (hneg hlt) (tb.value.length + 2) tb.cursor.x count hlt
        hcnt (by omega)
    refine ⟨tb, ?_, rfl, rfl⟩
    unfold TextBoxState.move
    rw [heq, hfw, if_pos (by norm_num)]
  · have hx : tb.cursor.x = tb.value.length := by omega
    have hfw : findWord tb.value tb.cursor.x pr (-1) count = (tb.cursor.x : Int) := by
      refine findWordLoop_stop tb.value pr (-1) (tb.value.length + 2) (tb.cursor.x : Int)
        count ?_
      rw [hx]
      omega
    refine ⟨{ tb with cursor := ⟨tb.cursor.x, tb.cursor.y⟩, completionOptions := [] },
      ?_, rfl, rfl⟩
    unfold TextBoxState.move
    rw [heq, hfw, if_neg (by omega)]
    simp

/-- Claim C6 (amended): a word-begin/word-end motion whose count exceeds the
number of positions where the boundary predicate fires among the visited
positions stops at `value.length` when moving right; moving left it runs past
position 0 and fails (or trivially stays when the cursor is already at the
line end), leaving cursor and value unchanged — it does not land on 0. -/
theorem c6_word_motion_excess_count (tb : TextBoxState) (mv : MovementKind)
    (chr : Option Char) (count : Nat) (reg : Char)
    (hmv : mv = .wordBegin ∨ mv = .wordEnd)
    (hcur : tb.cursor.x ≤ tb.value.length) :
    ((List.range' (tb.cursor.x + 1) (tb.value.length - tb.cursor.x)).countP
        (fun j : Nat => wordPredOf mv tb.value (j : Int)) < count →
      tb.move ⟨mv, .right, chr, count, reg⟩ =
        some { tb with cursor := ⟨tb.value.length, tb.cursor.y⟩, completionOptions := [] }) ∧
    ((List.range tb.cursor.x).countP
        (fun j : Nat => wordPredOf mv tb.value (j : Int)) < count →
      ∃ tb', tb.move ⟨mv, .left, chr, count, reg⟩ = some tb' ∧
        tb'.value = tb.value ∧ tb'.cursor = tb.cursor) := by
  rcases hmv with rfl | rfl
  · constructor
    · intro h
      exact move_word_right_excess tb isWordBegin chr count reg _
        (movement_wordBeginRight_eq tb chr count reg) hcur h
    · intro h
      exact move_word_left_excess tb isWordBegin chr count reg _
        (movement_wordBeginLeft_eq tb chr count reg)
        (fun _ => isWordBegin_neg_one tb.value) hcur h
  · constructor
    · intro h
      exact move_word_right_excess tb isWordEnd chr count reg _
        (movement_wordEndRight_eq tb chr count reg) hcur h
    · intro h
      exact move_word_left_excess tb isWordEnd chr count reg _
        (movement_wordEndLeft_eq tb chr count reg)
        (fun hlt => isWordEnd_neg_one tb.value (by omega)) hcur h

/-- A text box holding "ab" with the cursor on the second character. -/
def sampleWordBox : TextBoxState :=
  { value := ['a', 'b'], cursor := ⟨1, 0⟩, hlbegin := none,
    history := ⟨[['a', 'b']], 0, 500⟩, prev := ['a', 'b'], completionOptions := [] }

/-- Witness for (amended) C6 at the concrete box: rightward excess-count
word-begin motion stops at the line end, leftward leaves cursor and value
unchanged. -/
theorem c6_word_motion_witness :
    sampleWordBox.move ⟨.wordBegin, .right, none, 5, '"'⟩ =
      some { sampleWordBox with cursor := ⟨2, 0⟩, completionOptions := [] } ∧
    (∃ tb', sampleWordBox.move ⟨.wordBegin, .left, none, 5, '"'⟩ = some tb' ∧
      tb'.value = sampleWordBox.value ∧ tb'.cursor = sampleWordBox.cursor) := by
  have h := c6_word_motion_excess_count sampleWordBox .wordBegin none 5 '"'
    (Or.inl rfl) (by decide)
  exact ⟨h.1 (by decide), h.2 (by decide)⟩

/-- Counterexample to C6 as stated: with value "ab", cursor at 1, and a
leftward word-begin motion of count 5 (which exceeds the single firing
position 0), the motion fails and the cursor stays at 1 — it does not land on
index 0 as the claim asserts for leftward motions. -/
theorem c6_counterexample_left_does_not_land_at_zero :
    (List.range sampleWordBox.cursor.x).countP
        (fun j : Nat => isWordBegin sampleWordBox.value (j : Int)) < 5 ∧
    sampleWordBox.move ⟨.wordBegin, .left, none, 5, '"'⟩ = some sampleWordBox ∧
    sampleWordBox.cursor.x ≠ 0 := by
  refine ⟨by decide, by decide, by decide⟩

/-- A text box holding "abXcX" with the cursor at the start, for exercising
the to-char search. -/
def sampleSearchBox : TextBoxState :=
  { value := ['a', 'b', 'X', 'c', 'X'], cursor := ⟨0, 0⟩, hlbegin := none,
    history := ⟨[['a', 'b', 'X', 'c', 'X']], 0, 500⟩, prev := ['a', 'b', 'X', 'c', 'X'],
    completionOptions := [] }

/-- Witness for C3 at the concrete box "abXcX", searching for the second 'X'
from column 0. -/
theorem c3_to_char_witness :
    (∃ i : Nat,
        sampleSearchBox.movement ⟨.toChar, .right, some 'X', 2, '"'⟩ =
          some (some ⟨i, sampleSearchBox.cursor.y⟩, sampleSearchBox) ∧
        sampleSearchBox.value.get? i = some 'X' ∧
        occStrictlyBetween sampleSearchBox.value 'X' sampleSearchBox.cursor.x i = 2 - 1) ∨
    (sampleSearchBox.movement ⟨.toChar, .right, some 'X', 2, '"'⟩ =
        some (none, sampleSearchBox) ∧
      sampleSearchBox.move ⟨.toChar, .right, some 'X', 2, '"'⟩ = some sampleSearchBox) :=
  c3_to_char_right_motion sampleSearchBox 'X' 2 '"' (by decide)


/-- After `append` on a well-formed history (pointer on the last-read item,
capacity at least 2), stepping `prev 1` returns the element that was current
before the append. -/
lemma hist_append_prev (h : HistList (List Char)) (item : List Char)
    (h0 : 0 ≤ h.ptr) (h1 : h.ptr < (h.list.length : Int))
    (h2 : h.list.length ≤ h.maxSize) (hms : 2 ≤ h.maxSize) :
    ((h.append item).prev 1).1 = h.current := by
  unfold HistList.append HistList.prev HistList.current
  by_cases hcap : h.ptr = (h.maxSize : Int) - 1
  · rw [if_pos hcap]
    have hlen : h.list.length = h.maxSize := by omega
    have hd : (h.list.drop 1).length = h.maxSize - 1 := by
      simp [hlen]
    have hptr : h.ptr.toNat = h.maxSize - 1 := by omega
    have hset : listSet (h.list.drop 1) h.ptr.toNat item = h.list.drop 1 ++ [item] := by
      unfold listSet
      rw [if_neg (by omega)]
    rw [hset]
    simp only [Nat.cast_one]
    rw [if_neg (by omega)]
    have hp1 : (h.ptr - 1).toNat = h.maxSize - 2 := by omega
    rw [hp1]
    rw [List.get?_append (by omega)]
    rw [List.get?_drop]
    have hidx : 1 + (h.maxSize - 2) = h.ptr.toNat := by omega
    rw [hidx]
  · rw [if_neg hcap]
    simp only []
    have hple : (h.ptr + 1).toNat ≤ h.list.length := by omega
    have htk : (h.list.take (h.ptr + 1).toNat).length = (h.ptr + 1).toNat := by
      simp [hple]
    have hset : listSet (h.list.take (h.ptr + 1).toNat) (h.ptr + 1).toNat item =
        h.list.take (h.ptr + 1).toNat ++ [item] := by
      unfold listSet
      rw [if_neg (by omega)]
    rw [hset]
    simp only [Nat.cast_one]
    rw [if_neg (by omega)]
    have hpp : (h.ptr + 1 - 1).toNat = h.ptr.toNat := by omega
    rw [hpp]
    rw [List.get?_append (by omega)]
    rw [List.get?_take (by omega)]

/-- `_movement` either throws, or returns its state unchanged, or returns it
with just the highlight anchor consumed. -/
lemma movement_state_shape (tb : TextBoxState) (a : EditAction) :
    tb.movement a = none ∨
    (∃ r, tb.movement a = some (r, tb)) ∨
    (∃ r, tb.movement a = some (r, { tb with hlbegin := none })) := by
  rcases a with ⟨mv, dir, ch, cnt, rg⟩
  cases mv
  case highlight =>
    cases hh : tb.hlbegin
    · simp only [TextBoxState.movement, hh]
      split
      · right; left; exact ⟨_, rfl⟩
      · right; left; exact ⟨_, rfl⟩
    · simp only [TextBoxState.movement, hh]
      split
      · right; right; exact ⟨_, rfl⟩
      · right; right; exact ⟨_, rfl⟩
  all_goals
    cases dir <;> simp only [TextBoxState.movement] <;>
      first
        | (left; trivial)
        | (split <;> (right; left; exact ⟨_, rfl⟩))

/-- `_movement2range` has the same three-way state shape as `_movement`. -/
lemma movement2range_state_shape (tb : TextBoxState) (a : EditAction) :
    tb.movement2range a = none ∨
    (∃ r, tb.movement2range a = some (r, tb)) ∨
    (∃ r, tb.movement2range a = some (r, { tb with hlbegin := none })) := by
  unfold TextBoxState.movement2range
  rcases movement_state_shape tb a with h | ⟨r, h⟩ | ⟨r, h⟩ <;> rw [h]
  · left; rfl
  · cases r with
    | none => right; left; exact ⟨_, rfl⟩
    | some nc =>
      simp only []
      split
      · right; left; exact ⟨_, rfl⟩
      · right; left; exact ⟨_, rfl⟩
  · cases r with
    | none => right; right; exact ⟨_, rfl⟩
    | some nc =>
      simp only []
      split
      · right; right; exact ⟨_, rfl⟩
      · right; right; exact ⟨_, rfl⟩

/-- `_range` has the same three-way state shape. -/
lemma range_state_shape (tb : TextBoxState) (a : EditAction) :
    tb.range a = none ∨
    (∃ r, tb.range a = some (r, tb)) ∨
    (∃ r, tb.range a = some (r, { tb with hlbegin := none })) := by
  unfold TextBoxState.range
  rcases a with ⟨mv, dir, ch, cnt, rg⟩
  cases mv <;> cases dir <;> simp only [] <;>
    first
      | (right; left; exact ⟨_, rfl⟩)
      | exact movement2range_state_shape tb ⟨_, _, ch, cnt, rg⟩

/-- A successful `delete` never touches the history or the checkpoint
snapshot `prev`. -/
lemma deleteText_preserves (tb : TextBoxState) (regs : RegisterManager) (a : EditAction)
    (tb' : TextBoxState) (regs' : RegisterManager)
    (h : tb.deleteText regs a = some (tb', regs')) :
    tb'.history = tb.history ∧ tb'.prev = tb.prev := by
  unfold TextBoxState.deleteText at h
  rcases range_state_shape tb a with hr | ⟨r, hr⟩ | ⟨r, hr⟩ <;> rw [hr] at h
  · exact absurd h (by simp)
  · cases r with
    | none =>
      obtain ⟨rfl, -⟩ := Prod.mk.injEq .. ▸ (Option.some.injEq .. ▸ h)
      exact ⟨rfl, rfl⟩
    | some rr =>
      simp only [Option.some.injEq, Prod.mk.injEq] at h
      obtain ⟨rfl, -⟩ := h
      exact ⟨rfl, rfl⟩
  · cases r with
    | none =>
      simp only [Option.some.injEq, Prod.mk.injEq] at h
      obtain ⟨rfl, -⟩ := h
      exact ⟨rfl, rfl⟩
    | some rr =>
      simp only [Option.some.injEq, Prod.mk.injEq] at h
      obtain ⟨rfl, -⟩ := h
      exact ⟨rfl, rfl⟩

/-- Claim C2 (amended): starting from a state whose value is the current
(checkpointed) history snapshot, a successful delete that actually changes
the value, followed by the checkpoint fired on return to NORMAL and `undo 1`,
restores the pre-delete value; and with the history pointer strictly inside
the list, `undo 1 ; redo 1` leaves the value unchanged. -/
theorem c2_delete_undo_redo :
    (∀ (regs : RegisterManager) (tb : TextBoxState) (a : EditAction) (tb' : TextBoxState),
        0 ≤ tb.history.ptr →
        tb.history.ptr < (tb.history.list.length : Int) →
        tb.history.list.length ≤ tb.history.maxSize →
        2 ≤ tb.history.maxSize →
        tb.history.current = tb.value →
        tb.prev = tb.value →
        (tb.deleteText regs a).map Prod.fst = some tb' →
        tb'.value ≠ tb.value →
        ((tb'.checkpoint).undo 1).value = tb.value) ∧
    (∀ (tb : TextBoxState),
        tb.history.current = tb.value →
        1 ≤ tb.history.ptr →
        tb.history.ptr < (tb.history.list.length : Int) - 1 →
        ((tb.undo 1).redo 1).value = tb.value) := by
  constructor
  · intro regs tb a tb' h0 h1 h2 hms hcur hprev hdel hne
    cases hd : tb.deleteText regs a with
    | none =>
      rw [hd] at hdel
      exact absurd hdel (by simp)
    | some p =>
      rw [hd, Option.map_some'] at hdel
      obtain rfl : p.1 = tb' := Option.some.injEq .. ▸ hdel
      obtain ⟨hhist, hpr⟩ := deleteText_preserves tb regs a p.1 p.2 (by rw [hd])
      unfold TextBoxState.checkpoint
      rw [if_pos (by rw [hpr, hprev]; exact hne)]
      unfold TextBoxState.undo
      simp only [hhist]
      rw [hist_append_prev tb.history p.1.value h0 h1 h2 hms, hcur]
  · intro tb hcur hp1 hp2
    unfold TextBoxState.undo TextBoxState.redo HistList.prev HistList.next
    simp only [Nat.cast_one]
    rw [if_neg (by omega), if_neg (by omega)]
    have hpp : (tb.history.ptr - 1 + 1).toNat = tb.history.ptr.toNat := by omega
    rw [hpp]
    exact hcur

/-- A text box whose history is `["", "a"]` with the pointer on "a", value
"a" checkpointed, cursor at column 0. -/
def sampleUndoBox : TextBoxState :=
  { value := ['a'], cursor := ⟨0, 0⟩, hlbegin := none,
    history := ⟨[[], ['a']], 1, 500⟩, prev := ['a'], completionOptions := [] }

/-- Counterexample to C2 as stated: a char-left delete at column 0 succeeds
(its range is empty, so the registers are even updated with ""), leaves the
value "a" unchanged, makes the checkpoint a no-op, and then `undo 1` steps
back to the previous snapshot "" — the pre-delete value "a" is NOT
restored. -/
theorem c2_counterexample_empty_range_delete :
    sampleUndoBox.history.current = sampleUndoBox.value ∧
    sampleUndoBox.prev = sampleUndoBox.value ∧
    ((sampleUndoBox.deleteText RegisterManager.init ⟨.char, .left, none, 1, '"'⟩).map
        Prod.fst).isSome = true ∧
    (sampleUndoBox.deleteText RegisterManager.init ⟨.char, .left, none, 1, '"'⟩).map
        (fun p => ((p.1.checkpoint).undo 1).value) = some [] ∧
    sampleUndoBox.value = ['a'] ∧
    ([] : List Char) ≠ ['a'] := by
  refine ⟨by decide, by decide, by decide, by decide, by decide, by decide⟩

/-- A text box holding "ab" over the history `["a", "ab"]`, for the witness
delete. -/
def sampleDeleteBox : TextBoxState :=
  { value := ['a', 'b'], cursor := ⟨0, 0⟩, hlbegin := none,
    history := ⟨[['a'], ['a', 'b']], 1, 500⟩, prev := ['a', 'b'], completionOptions := [] }

/-- The state reached from `sampleDeleteBox` by deleting its first
character. -/
def sampleDeletedBox : TextBoxState :=
  { value := ['b'], cursor := ⟨0, 0⟩, hlbegin := none,
    history := ⟨[['a'], ['a', 'b']], 1, 500⟩, prev := ['a', 'b'], completionOptions := [] }

/-- A text box with the history pointer strictly inside `["", "a", "b"]`. -/
def sampleUndoRedoBox : TextBoxState :=
  { value := ['a'], cursor := ⟨0, 0⟩, hlbegin := none,
    history := ⟨[[], ['a'], ['b']], 1, 500⟩, prev := ['a'], completionOptions := [] }

/-- Witness for (amended) C2: deleting the first character of "ab",
checkpointing and undoing restores "ab"; and `undo 1 ; redo 1` from the
middle of a three-entry history is the identity on the value. -/
theorem c2_delete_undo_redo_witness :
    ((sampleDeletedBox.checkpoint).undo 1).value = sampleDeleteBox.value ∧
    ((sampleUndoRedoBox.undo 1).redo 1).value = sampleUndoRedoBox.value := by
  constructor
  · exact c2_delete_undo_redo.1 RegisterManager.init sampleDeleteBox
      ⟨.char, .right, none, 1, '"'⟩ _ (by decide) (by decide) (by decide) (by decide)
      (by decide) (by decide) (by decide) (by decide)
  · exact c2_delete_undo_redo.2 sampleUndoRedoBox (by decide) (by decide) (by decide)

/-- The JS guard `winHeight / (n + 1) < 4` (exact number division) is the
same as `winHeight < 4 * (n + 1)`. -/
lemma hsplit_guard_iff (winHeight n : Nat) :
    ((winHeight : ℚ) / ((n : ℚ) + 1) < (MIN_VIEW_HEIGHT : ℚ)) ↔
      winHeight < 4 * (n + 1) := by
  rw [div_lt_iff (by positivity)]
  rw [show ((MIN_VIEW_HEIGHT : Nat) : ℚ) = (4 : ℚ) by norm_num [MIN_VIEW_HEIGHT]]
  exact ⟨fun h => by exact_mod_cast h, fun h => by exact_mod_cast h⟩

/-- `_insert` splices the new entry in at the focused index; the `reflow`
it triggers never touches the pane list. -/
lemma insertPane_panes {π : Type} (w : WindowState π) (p : π) (height width : Option Nat) :
    (Window.insertPane w p height width).panes =
      w.panes.take w.index ++ (⟨p, height, width⟩ : PaneEnt π) :: w.panes.drop w.index := by
  unfold Window.insertPane Window.reflow
  split
  · rfl
  · split <;> rfl

/-- Claim C7 (amended): `hsplit` warns "Not enough room" and leaves the
window untouched exactly when `winHeight < 4 * (n + 1)`; otherwise it splices
a clone of the focused pane in at the focused index, with a non-zero
requested height clamped to a minimum of 4 and a requested height of 0
stored unclamped (JS treats 0 as an absent request). -/
theorem c7_hsplit_refusal_and_insert (π : Type) (winHeight : Nat) (clone : π → π)
    (w : WindowState π) (height : Option Nat) :
    (winHeight < 4 * (w.panes.length + 1) →
      Window.hsplit winHeight clone w height = (w, some "Not enough room")) ∧
    (4 * (w.panes.length + 1) ≤ winHeight →
      (Window.hsplit winHeight clone w height).2 = none ∧
      (Window.hsplit winHeight clone w height).1.panes =
        w.panes.take w.index ++
          (⟨clone w.pane,
            (match height with
             | some hh => if hh ≠ 0 then some (max hh MIN_VIEW_HEIGHT) else some hh
             | none => none),
            none⟩ : PaneEnt π) :: w.panes.drop w.index) := by
  constructor
  · intro h
    unfold Window.hsplit
    rw [if_pos ((hsplit_guard_iff winHeight w.panes.length).mpr h)]
  · intro h
    unfold Window.hsplit
    rw [if_neg (by rw [hsplit_guard_iff]; omega)]
    exact ⟨rfl, insertPane_panes w (clone w.pane) _ none⟩

/-- A window with a single pane (labelled 7) occupying it. -/
def sampleWindow : WindowState Nat :=
  { panes := [⟨7, none, none⟩], index := 0, pane := 7, zoomed := false }

/-- Counterexample to C7 as stated: with window height 8 and one pane the
split is permitted (8 = 4·2), but a requested fixed height of 0 is stored as
0 — it is NOT clamped to the claimed minimum of 4. -/
theorem c7_counterexample_zero_height_not_clamped :
    4 * (sampleWindow.panes.length + 1) ≤ 8 ∧
    (Window.hsplit 8 id sampleWindow (some 0)).2 = none ∧
    ((Window.hsplit 8 id sampleWindow (some 0)).1.panes.get? 0).map PaneEnt.height =
      some (some 0) ∧
    ((Window.hsplit 8 id sampleWindow (some 0)).1.panes.get? 0).map PaneEnt.height ≠
      some (some (max 0 MIN_VIEW_HEIGHT)) := by
  have hguard : ¬ ((8 : Nat) : ℚ) / ((sampleWindow.panes.length : ℚ) + 1) <
      ((MIN_VIEW_HEIGHT : Nat) : ℚ) := by
    rw [hsplit_guard_iff]
    decide
  refine ⟨by decide, ?_, ?_, ?_⟩ <;>
    · unfold Window.hsplit
      rw [if_neg hguard]
      try decide

/-- Witness for (amended) C7: a height-7 window with one pane refuses the
split; a height-9 window splits, storing the requested height 2 clamped up
to 4. -/
theorem c7_hsplit_witness :
    Window.hsplit 7 id sampleWindow none = (sampleWindow, some "Not enough room") ∧
    (Window.hsplit 9 id sampleWindow (some 2)).2 = none ∧
    (Window.hsplit 9 id sampleWindow (some 2)).1.panes =
      sampleWindow.panes.take 0 ++ (⟨7, some 4, none⟩ : PaneEnt Nat) ::
        sampleWindow.panes.drop 0 := by
  refine ⟨(c7_hsplit_refusal_and_insert Nat 7 id sampleWindow none).1 (by decide), ?_⟩
  have h := (c7_hsplit_refusal_and_insert Nat 9 id sampleWindow (some 2)).2 (by decide)
  exact ⟨h.1, h.2⟩

end Iamb
